import Mathlib

/-!
# Account ledger: a shallow embedding of `account_management.c`

The C program keeps a fixed array of `MAX_ACCOUNTS` accounts (id, `double`
balance, mutex), a counter `account_count`, a snapshot file `accounts.txt`
and an append-only log `transaction_log.txt`.

* `double` is embedded as `F64`, an exact model of IEEE-754 binary64 with
  round-to-nearest-even: a finite value is a sign and a magnitude counted in
  units of `2^-1074` (the smallest subnormal), so every sum of two doubles is
  an integer number of units and is rounded exactly once. All NaNs are one
  value.
* `printf("%.2f")` and `scanf("%lf")` are embedded as `fmt2` / `scanLf` over
  `Dec2`, the decimal text with two fractional digits; a snapshot file is a
  list of well-formed lines.
* every C function is a function `World → Except Fault World`; an array
  access outside `accounts[0 .. MAX_ACCOUNTS)` is `Fault.outOfBounds`,
  locking a mutex that is already held is `Fault.deadlock` (the call never
  returns), and unlocking marks the mutex free.
* `fopen` of either file may fail (`accountWritable`, `logWritable`), as the
  `NULL` branches of `save_accounts` and `log_transaction` provide for.
* `get_current_time()` is the field `now`.
* each call records its mutex and file events in `World.trace` and its
  console output in `World.out`.
-/

namespace Ledger

/-! ## binary64 -/

/-- An IEEE-754 binary64 value. `fin neg m` is `(-1)^neg * m * 2^-1074`. -/
inductive F64 where
  | fin (neg : Bool) (m : Nat)
  | inf (neg : Bool)
  | nan
deriving DecidableEq

namespace F64

/-- Nearest integer to `p / q`, ties to even. -/
def rne (p q : Nat) : Nat :=
  if 2 * (p % q) < q then p / q
  else if q < 2 * (p % q) then p / q + 1
  else if (p / q) % 2 = 0 then p / q else p / q + 1

/-- Floor of the base-2 logarithm, exact for `0 < k < 2^4096`. -/
def ilog2 (k : Nat) : Nat :=
  [2048, 1024, 512, 256, 128, 64, 32, 16, 8, 4, 2, 1].foldl
    (fun e b => if 2 ^ (e + b) ≤ k then e + b else e) 0

/-- The magnitude `p / q` (in units of `2^-1074`) rounded to 53 significant
bits, ties to even. Below `2^53` units the spacing is one unit. -/
def roundMag (p q : Nat) : Nat :=
  rne p (q * 2 ^ (ilog2 (p / q) - 52)) * 2 ^ (ilog2 (p / q) - 52)

/-- Round the rational magnitude `p / q` to a double of sign `neg`;
magnitudes that round to `2^1024` or more overflow to infinity. -/
def round (neg : Bool) (p q : Nat) : F64 :=
  if 2 ^ 2098 ≤ p / q then inf neg
  else if roundMag p q < 2 ^ 2098 then fin neg (roundMag p q) else inf neg

/-- Signed value of `fin s m` in units. -/
def val (s : Bool) (m : Nat) : Int := if s then -(m : Int) else (m : Int)

/-- Exact value of a finite double, in units of `2^-1074`. -/
def toInt? : F64 → Option Int
  | fin true m => some (-(m : Int))
  | fin false m => some (m : Int)
  | _ => none

/-- The double nearest to the integer `z` (in units of `2^-1074`). -/
def ofUnits (z : Int) : F64 := round (decide (z < 0)) z.natAbs 1

/-- Addition `x + y` of C doubles. -/
def add : F64 → F64 → F64
  | nan, _ => nan
  | _, nan => nan
  | inf s, inf t => if s = t then inf s else nan
  | inf s, fin _ _ => inf s
  | fin _ _, inf t => inf t
  | fin s a, fin t b =>
    if s = t then round s (a + b) 1
    else if a = b then fin false 0
    else if b < a then round s (a - b) 1
    else round t (b - a) 1

/-- Unary minus. -/
def neg : F64 → F64
  | fin s m => fin (!s) m
  | inf s => inf (!s)
  | nan => nan

/-- Subtraction `x - y` of C doubles. -/
def sub (x y : F64) : F64 := add x (neg y)

/-- Comparison `x >= y` of C doubles (false when either side is NaN). -/
def ge : F64 → F64 → Bool
  | nan, _ => false
  | _, nan => false
  | inf s, inf t => !s || t
  | inf s, fin _ _ => !s
  | fin _ _, inf t => t
  | fin s a, fin t b =>
    decide ((if t then -(b : Int) else (b : Int)) ≤ (if s then -(a : Int) else (a : Int)))

/-- Comparison `x < y` of C doubles (false when either side is NaN). -/
def lt : F64 → F64 → Bool
  | nan, _ => false
  | _, nan => false
  | inf s, inf t => s && !t
  | inf s, fin _ _ => s
  | fin _ _, inf t => !t
  | fin s a, fin t b =>
    decide ((if s then -(a : Int) else (a : Int)) < (if t then -(b : Int) else (b : Int)))

/-- Comparison `x == y` of C doubles: the two zeros are equal, NaN is not. -/
def eq : F64 → F64 → Bool
  | nan, _ => false
  | _, nan => false
  | inf s, inf t => decide (s = t)
  | inf _, fin _ _ => false
  | fin _ _, inf _ => false
  | fin s a, fin t b =>
    decide ((if s then -(a : Int) else (a : Int)) = (if t then -(b : Int) else (b : Int)))

/-- `x + y` is computed without rounding error. -/
def exactAdd (x y : F64) : Bool :=
  match x.toInt?, y.toInt?, (add x y).toInt? with
  | some a, some b, some c => decide (c = a + b)
  | _, _, _ => false

/-- `x - y` is computed without rounding error. -/
def exactSub (x y : F64) : Bool :=
  match x.toInt?, y.toInt?, (sub x y).toInt? with
  | some a, some b, some c => decide (c = a - b)
  | _, _, _ => false

/-- A value a binary64 can hold: at most 53 significant bits, below `2^1024`. -/
def isDouble : F64 → Bool
  | fin _ m => decide (m < 2 ^ 2098) && decide (roundMag m 1 = m)
  | _ => true

end F64

/-! ## text conversions -/

/-- The text of a double printed with `%.2f`. -/
inductive Dec2 where
  | num (neg : Bool) (hundredths : Nat)
  | inf (neg : Bool)
  | nan
deriving DecidableEq

/-- `printf("%.2f", x)`: the exact value rounded to two decimals, ties to even. -/
def fmt2 : F64 → Dec2
  | F64.fin s m => Dec2.num s (F64.rne (m * 100) (2 ^ 1074))
  | F64.inf s => Dec2.inf s
  | F64.nan => Dec2.nan

/-- `scanf("%lf")` on text with two decimals: the nearest double. -/
def scanLf : Dec2 → F64
  | Dec2.num s h => F64.round s (h * 2 ^ 1074) 100
  | Dec2.inf s => F64.inf s
  | Dec2.nan => F64.nan

/-- The double `scanf("%lf")` reads from the decimal text `h / 100`; for
example `cents 50` is the double written `0.50`. -/
def cents (h : Nat) : F64 := scanLf (Dec2.num false h)

/-! ## program state -/

/-- `#define MAX_ACCOUNTS 10`. -/
def MAX_ACCOUNTS : Nat := 10

/-- One slot of `Account accounts[MAX_ACCOUNTS]`; `lock` is true while the
slot's mutex is held. -/
structure Account where
  id : Int
  balance : F64
  lock : Bool

/-- A slot of static storage before anything is written to it. -/
def zeroAccount : Account := ⟨0, F64.fin false 0, false⟩

/-- One line `"%d %.2f\n"` of `accounts.txt`. -/
structure SnapLine where
  id : Int
  balance : Dec2
deriving DecidableEq

/-- One line of `transaction_log.txt`. -/
structure LogRecord where
  time : Nat
  operation : String
  amount : Dec2
  from_account_id : Int
  to_account_id : Int
  status : String
deriving DecidableEq

/-- Lines written to stdout and stderr. -/
inductive Msg where
  | noAccountFile
  | saveOpenFailed
  | logOpenFailed
  | accountCreated (id : Int) (balance : Dec2)
  | maxLimitReached
  | deposited (amount : Dec2) (id : Int)
  | withdrawn (amount : Dec2) (id : Int)
  | insufficientBalance (id : Int)
  | transferred (amount : Dec2) (src dst : Int)
deriving DecidableEq

/-- Mutex and file events of a run, in program order. -/
inductive Event where
  | acquire (i : Int)
  | release (i : Int)
  | acquireFile
  | releaseFile
  | logAppend
  | snapshotWrite
deriving DecidableEq

/-- Ways a call fails to return. -/
inductive Fault where
  | outOfBounds
  | deadlock
deriving DecidableEq

/-- The globals of the program together with the two files and the clock. -/
structure World where
  accounts : Nat → Account
  account_count : Nat
  file_lock : Bool
  accountFile : Option (List SnapLine)
  accountWritable : Bool
  logFile : List LogRecord
  logWritable : Bool
  now : Nat
  out : List Msg
  trace : List Event

/-- The state at process start: zeroed globals, the files as found on disk. -/
def boot (accountFile : Option (List SnapLine)) (accountWritable : Bool)
    (logFile : List LogRecord) (logWritable : Bool) (now : Nat) : World :=
  { accounts := fun _ => zeroAccount
    account_count := 0
    file_lock := false
    accountFile := accountFile
    accountWritable := accountWritable
    logFile := logFile
    logWritable := logWritable
    now := now
    out := []
    trace := [] }

/-- Replace slot `i` by `g` applied to it. -/
def updAcc (f : Nat → Account) (i : Nat) (g : Account → Account) : Nat → Account :=
  fun j => if j = i then g (f j) else f j

/-- Set the mutex state of slot `i`. -/
def World.setLock (w : World) (i : Nat) (b : Bool) : World :=
  { w with accounts := updAcc w.accounts i (fun a => { a with lock := b }) }

/-- Assign `accounts[i].balance = x`. -/
def World.setBalance (w : World) (i : Nat) (x : F64) : World :=
  { w with accounts := updAcc w.accounts i (fun a => { a with balance := x }) }

/-- Assign the whole slot `accounts[i] = a`. -/
def World.setSlot (w : World) (i : Nat) (a : Account) : World :=
  { w with accounts := updAcc w.accounts i (fun _ => a) }

/-- Assign `account_count = n`. -/
def World.setCount (w : World) (n : Nat) : World := { w with account_count := n }

/-- Set the state of `file_lock`. -/
def World.setFileLock (w : World) (b : Bool) : World := { w with file_lock := b }

/-- Append one line to `transaction_log.txt`. -/
def World.appendLog (w : World) (r : LogRecord) : World := { w with logFile := w.logFile ++ [r] }

/-- Replace the contents of `accounts.txt`. -/
def World.writeSnapshot (w : World) (ls : List SnapLine) : World :=
  { w with accountFile := some ls }

/-- Record an event in the trace. -/
def World.emit (w : World) (e : Event) : World := { w with trace := w.trace ++ [e] }

/-- `printf` / `fprintf(stderr, ...)`. -/
def World.print (w : World) (m : Msg) : World := { w with out := w.out ++ [m] }

/-- Index `i` lies inside `accounts[0 .. MAX_ACCOUNTS)`. -/
def inArray (i : Int) : Prop := 0 ≤ i ∧ i < (MAX_ACCOUNTS : Int)

instance (i : Int) : Decidable (inArray i) := by unfold inArray; infer_instance

/-- `pthread_mutex_lock(&accounts[i].lock)`. -/
def lockAccount (i : Int) (w : World) : Except Fault World :=
  if inArray i then
    if (w.accounts i.toNat).lock then Except.error Fault.deadlock
    else Except.ok ((w.setLock i.toNat true).emit (Event.acquire i))
  else Except.error Fault.outOfBounds

/-- `pthread_mutex_unlock(&accounts[i].lock)`. -/
def unlockAccount (i : Int) (w : World) : Except Fault World :=
  if inArray i then Except.ok ((w.setLock i.toNat false).emit (Event.release i))
  else Except.error Fault.outOfBounds

/-- Read `accounts[i].balance`. -/
def readBalance (i : Int) (w : World) : Except Fault F64 :=
  if inArray i then Except.ok (w.accounts i.toNat).balance
  else Except.error Fault.outOfBounds

/-- Write `accounts[i].balance = b`. -/
def writeBalance (i : Int) (b : F64) (w : World) : Except Fault World :=
  if inArray i then Except.ok (w.setBalance i.toNat b)
  else Except.error Fault.outOfBounds

/-- `pthread_mutex_lock(&file_lock)`. -/
def lockFile (w : World) : Except Fault World :=
  if w.file_lock then Except.error Fault.deadlock
  else Except.ok ((w.setFileLock true).emit Event.acquireFile)

/-- `pthread_mutex_unlock(&file_lock)`. -/
def unlockFile (w : World) : World := (w.setFileLock false).emit Event.releaseFile

/-! ## the functions of `account_management.c` -/

/-- The timestamp `get_current_time()` returns: the clock reading of the run. -/
def get_current_time (w : World) : Nat := w.now

/-- The `for` loop of `save_accounts`: one line per account below
`account_count`, in index order. -/
def snapshotLines (w : World) : List SnapLine :=
  (List.range w.account_count).map
    (fun i => ⟨(w.accounts i).id, fmt2 (w.accounts i).balance⟩)

/-- The `while (fscanf(...) != EOF)` loop of `load_accounts`: each line is
read into `accounts[account_count]`, whose mutex is then initialised. -/
def load_loop : List SnapLine → World → Except Fault World
  | [], w => Except.ok w
  | l :: ls, w =>
    if w.account_count < MAX_ACCOUNTS then
      load_loop ls
        ((w.setSlot w.account_count ⟨l.id, scanLf l.balance, false⟩).setCount
          (w.account_count + 1))
    else Except.error Fault.outOfBounds

/-- `load_accounts` (lines 32-44): without a snapshot file print a notice,
otherwise read the lines into the array from `account_count` on. -/
def load_accounts (w : World) : Except Fault World :=
  match w.accountFile with
  | none => Except.ok (w.print Msg.noAccountFile)
  | some ls => load_loop ls w

/-- `save_accounts` (lines 46-60): under `file_lock`, rewrite the snapshot
file with one line per account, or report that it cannot be opened. -/
def save_accounts (w : World) : Except Fault World := do
  let w ← lockFile w
  if w.accountWritable then
    if w.account_count ≤ MAX_ACCOUNTS then
      pure (unlockFile ((w.writeSnapshot (snapshotLines w)).emit Event.snapshotWrite))
    else Except.error Fault.outOfBounds
  else pure (unlockFile (w.print Msg.saveOpenFailed))

/-- `log_transaction` (lines 63-76): under `file_lock`, append one line to
the log, or report that it cannot be opened. -/
def log_transaction (operation : String) (amount : F64)
    (from_account_id to_account_id : Int) (status : String) (w : World) :
    Except Fault World := do
  let w ← lockFile w
  if w.logWritable then
    pure (unlockFile ((w.appendLog
      ⟨get_current_time w, operation, fmt2 amount, from_account_id, to_account_id, status⟩).emit
        Event.logAppend))
  else pure (unlockFile (w.print Msg.logOpenFailed))

/-- `create_account` (lines 79-97). Below capacity: lock the next slot, store
the new account (whose mutex is freshly initialised), increment the count,
unlock, log, print, save. At capacity: print the limit message only. -/
def create_account (initial_balance : F64) (w : World) : Except Fault World :=
  if w.account_count < MAX_ACCOUNTS then do
    let w ← lockAccount (w.account_count : Int) w
    let new_account : Account := ⟨(w.account_count : Int), initial_balance, false⟩
    let w := w.setSlot w.account_count new_account
    let w := w.setCount (w.account_count + 1)
    let w ← unlockAccount ((w.account_count : Int) - 1) w
    let w ← log_transaction "Create Account" initial_balance new_account.id (-1) "Successful" w
    let w := w.print (Msg.accountCreated new_account.id (fmt2 new_account.balance))
    save_accounts w
  else pure (w.print Msg.maxLimitReached)

/-- `deposit` (lines 100-109): no check of `account_id`. -/
def deposit (account_id : Int) (amount : F64) (w : World) : Except Fault World := do
  let w ← lockAccount account_id w
  let b ← readBalance account_id w
  let w ← writeBalance account_id (F64.add b amount) w
  let w ← unlockAccount account_id w
  let w ← log_transaction "Deposit" amount account_id (-1) "Successful" w
  let w := w.print (Msg.deposited (fmt2 amount) account_id)
  save_accounts w

/-- `withdraw` (lines 112-127): both branches unlock before logging. -/
def withdraw (account_id : Int) (amount : F64) (w : World) : Except Fault World := do
  let w ← lockAccount account_id w
  let b ← readBalance account_id w
  if F64.ge b amount then
    let w ← writeBalance account_id (F64.sub b amount) w
    let w ← unlockAccount account_id w
    let w ← log_transaction "Withdraw" amount account_id (-1) "Successful" w
    let w := w.print (Msg.withdrawn (fmt2 amount) account_id)
    save_accounts w
  else
    let w ← unlockAccount account_id w
    let w ← log_transaction "Withdraw" amount account_id (-1) "Failed: Insufficient balance" w
    let w := w.print (Msg.insufficientBalance account_id)
    save_accounts w

/-- `transfer_funds` (lines 130-157): lock the two accounts, lower id first
when `from < to` and `to` first otherwise; move the amount or not; log inside
the locked region; unlock `to`, then `from`; save. -/
def transfer_funds (from_account_id to_account_id : Int) (amount : F64) (w : World) :
    Except Fault World := do
  let w ← (if from_account_id < to_account_id then do
      let w ← lockAccount from_account_id w
      lockAccount to_account_id w
    else do
      let w ← lockAccount to_account_id w
      lockAccount from_account_id w)
  let b ← readBalance from_account_id w
  let w ← (if F64.ge b amount then do
      let w ← writeBalance from_account_id (F64.sub b amount) w
      let c ← readBalance to_account_id w
      let w ← writeBalance to_account_id (F64.add c amount) w
      let w ← log_transaction "Transfer" amount from_account_id to_account_id "Successful" w
      pure (w.print (Msg.transferred (fmt2 amount) from_account_id to_account_id))
    else do
      let w ← log_transaction "Transfer" amount from_account_id to_account_id
        "Failed: Insufficient balance" w
      pure (w.print (Msg.insufficientBalance from_account_id)))
  let w ← unlockAccount to_account_id w
  let w ← unlockAccount from_account_id w
  save_accounts w

/-! ## predicates used by the statements -/

/-- No mutex is held: the state between two calls of a single thread. -/
def locksFree (w : World) : Prop :=
  w.file_lock = false ∧ ∀ i, i < MAX_ACCOUNTS → (w.accounts i).lock = false

/-- The store invariant: the count is within capacity and slot `i` carries id `i`. -/
def storeInv (w : World) : Prop :=
  w.account_count ≤ MAX_ACCOUNTS ∧
    ∀ i, i < w.account_count → (w.accounts i).id = (i : Int)

/-- Balance of slot `i`. -/
def World.balance (w : World) (i : Int) : F64 := (w.accounts i.toNat).balance

/-- Some log append or snapshot write of the trace happens while an account
mutex (one of `held`, or one acquired earlier in the trace) is held. -/
def ioUnderAccountLock : List Int → List Event → Bool
  | _, [] => false
  | held, Event.acquire i :: es => ioUnderAccountLock (i :: held) es
  | held, Event.release i :: es => ioUnderAccountLock (held.erase i) es
  | held, Event.logAppend :: es => !held.isEmpty || ioUnderAccountLock held es
  | held, Event.snapshotWrite :: es => !held.isEmpty || ioUnderAccountLock held es
  | held, _ :: es => ioUnderAccountLock held es

/-- The account-mutex acquisitions of a trace, in order. -/
def accountAcquires : List Event → List Int
  | [] => []
  | Event.acquire i :: es => i :: accountAcquires es
  | _ :: es => accountAcquires es

/-- An id that names an existing account. -/
def validId (w : World) (i : Int) : Prop := 0 ≤ i ∧ i < (w.account_count : Int)

instance (w : World) (i : Int) : Decidable (validId w i) := by unfold validId; infer_instance

/-! ## runs used by the concrete statements -/

/-- Run a sequence of calls, stopping at the first fault. -/
def runCalls : List (World → Except Fault World) → World → Except Fault World
  | [], w => Except.ok w
  | f :: fs, w =>
    match f w with
    | Except.ok w' => runCalls fs w'
    | Except.error e => Except.error e

/-- A process started with no snapshot file, an empty log, and both files
writable; `logWritable` says whether the log can be opened. -/
def freshBoot (logWritable : Bool) : World := boot none true [] logWritable 0

/-- The events a call added to the trace. -/
def newEvents (w w' : World) : List Event := w'.trace.drop w.trace.length

/-- The call sequence of the scenario: create 100.00, deposit 50.00 to 0,
withdraw 200.00 from 0, create 0.00, transfer 150.00 from 0 to 1. -/
def scenarioCalls : List (World → Except Fault World) :=
  [create_account (cents 10000), deposit 0 (cents 5000), withdraw 0 (cents 20000),
   create_account (cents 0), transfer_funds 0 1 (cents 15000)]

/-- What a log record says, without its timestamp and amount. -/
def LogRecord.summary (r : LogRecord) : String × Int × Int × String :=
  (r.operation, r.from_account_id, r.to_account_id, r.status)

/-- A store holding two accounts, ids 0 and 1, with balances `a` and `b`. -/
def twoAccounts (a b : F64) (logWritable : Bool) : World :=
  (((freshBoot logWritable).setSlot 0 ⟨0, a, false⟩).setSlot 1 ⟨1, b, false⟩).setCount 2

/-- A store at capacity: ten accounts, ids 0 to 9, each with balance `a`. -/
def fullStore (a : F64) : World :=
  { freshBoot true with
    accounts := fun j => ⟨(j : Int), a, false⟩
    account_count := MAX_ACCOUNTS }

/-- A new process started on the files a previous run left behind. -/
def restart (w : World) : World :=
  boot w.accountFile w.accountWritable w.logFile w.logWritable w.now

/-! ## frame lemmas for the state updates -/

@[simp] theorem updAcc_apply (f : Nat → Account) (i : Nat) (g : Account → Account) (j : Nat) :
    updAcc f i g j = if j = i then g (f j) else f j := rfl

@[simp] theorem World.setLock_fields (w : World) (i : Nat) (b : Bool) :
    (w.setLock i b).account_count = w.account_count ∧
    (w.setLock i b).file_lock = w.file_lock ∧
    (w.setLock i b).accountFile = w.accountFile ∧
    (w.setLock i b).accountWritable = w.accountWritable ∧
    (w.setLock i b).logFile = w.logFile ∧
    (w.setLock i b).logWritable = w.logWritable ∧
    (w.setLock i b).now = w.now ∧
    (w.setLock i b).out = w.out ∧
    (w.setLock i b).trace = w.trace :=
  ⟨rfl, rfl, rfl, rfl, rfl, rfl, rfl, rfl, rfl⟩

@[simp] theorem World.setLock_slot (w : World) (i : Nat) (b : Bool) (j : Nat) :
    ((w.setLock i b).accounts j).id = (w.accounts j).id ∧
    ((w.setLock i b).accounts j).balance = (w.accounts j).balance ∧
    ((w.setLock i b).accounts j).lock = (if j = i then b else (w.accounts j).lock) := by
  refine ⟨?_, ?_, ?_⟩ <;> simp only [World.setLock, updAcc] <;> split <;> rfl

@[simp] theorem World.setBalance_fields (w : World) (i : Nat) (x : F64) :
    (w.setBalance i x).account_count = w.account_count ∧
    (w.setBalance i x).file_lock = w.file_lock ∧
    (w.setBalance i x).accountFile = w.accountFile ∧
    (w.setBalance i x).accountWritable = w.accountWritable ∧
    (w.setBalance i x).logFile = w.logFile ∧
    (w.setBalance i x).logWritable = w.logWritable ∧
    (w.setBalance i x).now = w.now ∧
    (w.setBalance i x).out = w.out ∧
    (w.setBalance i x).trace = w.trace :=
  ⟨rfl, rfl, rfl, rfl, rfl, rfl, rfl, rfl, rfl⟩

@[simp] theorem World.setBalance_slot (w : World) (i : Nat) (x : F64) (j : Nat) :
    ((w.setBalance i x).accounts j).id = (w.accounts j).id ∧
    ((w.setBalance i x).accounts j).balance = (if j = i then x else (w.accounts j).balance) ∧
    ((w.setBalance i x).accounts j).lock = (w.accounts j).lock := by
  refine ⟨?_, ?_, ?_⟩ <;> simp only [World.setBalance, updAcc] <;> split <;> rfl

@[simp] theorem World.setSlot_fields (w : World) (i : Nat) (a : Account) :
    (w.setSlot i a).account_count = w.account_count ∧
    (w.setSlot i a).file_lock = w.file_lock ∧
    (w.setSlot i a).accountFile = w.accountFile ∧
    (w.setSlot i a).accountWritable = w.accountWritable ∧
    (w.setSlot i a).logFile = w.logFile ∧
    (w.setSlot i a).logWritable = w.logWritable ∧
    (w.setSlot i a).now = w.now ∧
    (w.setSlot i a).out = w.out ∧
    (w.setSlot i a).trace = w.trace :=
  ⟨rfl, rfl, rfl, rfl, rfl, rfl, rfl, rfl, rfl⟩

@[simp] theorem World.setSlot_slot (w : World) (i : Nat) (a : Account) (j : Nat) :
    (w.setSlot i a).accounts j = (if j = i then a else w.accounts j) := rfl

@[simp] theorem World.setCount_fields (w : World) (n : Nat) :
    (w.setCount n).accounts = w.accounts ∧
    (w.setCount n).account_count = n ∧
    (w.setCount n).file_lock = w.file_lock ∧
    (w.setCount n).accountFile = w.accountFile ∧
    (w.setCount n).accountWritable = w.accountWritable ∧
    (w.setCount n).logFile = w.logFile ∧
    (w.setCount n).logWritable = w.logWritable ∧
    (w.setCount n).now = w.now ∧
    (w.setCount n).out = w.out ∧
    (w.setCount n).trace = w.trace :=
  ⟨rfl, rfl, rfl, rfl, rfl, rfl, rfl, rfl, rfl, rfl⟩

@[simp] theorem World.setFileLock_fields (w : World) (b : Bool) :
    (w.setFileLock b).accounts = w.accounts ∧
    (w.setFileLock b).account_count = w.account_count ∧
    (w.setFileLock b).file_lock = b ∧
    (w.setFileLock b).accountFile = w.accountFile ∧
    (w.setFileLock b).accountWritable = w.accountWritable ∧
    (w.setFileLock b).logFile = w.logFile ∧
    (w.setFileLock b).logWritable = w.logWritable ∧
    (w.setFileLock b).now = w.now ∧
    (w.setFileLock b).out = w.out ∧
    (w.setFileLock b).trace = w.trace :=
  ⟨rfl, rfl, rfl, rfl, rfl, rfl, rfl, rfl, rfl, rfl⟩

@[simp] theorem World.appendLog_fields (w : World) (r : LogRecord) :
    (w.appendLog r).accounts = w.accounts ∧
    (w.appendLog r).account_count = w.account_count ∧
    (w.appendLog r).file_lock = w.file_lock ∧
    (w.appendLog r).accountFile = w.accountFile ∧
    (w.appendLog r).accountWritable = w.accountWritable ∧
    (w.appendLog r).logFile = w.logFile ++ [r] ∧
    (w.appendLog r).logWritable = w.logWritable ∧
    (w.appendLog r).now = w.now ∧
    (w.appendLog r).out = w.out ∧
    (w.appendLog r).trace = w.trace :=
  ⟨rfl, rfl, rfl, rfl, rfl, rfl, rfl, rfl, rfl, rfl⟩

@[simp] theorem World.writeSnapshot_fields (w : World) (ls : List SnapLine) :
    (w.writeSnapshot ls).accounts = w.accounts ∧
    (w.writeSnapshot ls).account_count = w.account_count ∧
    (w.writeSnapshot ls).file_lock = w.file_lock ∧
    (w.writeSnapshot ls).accountFile = some ls ∧
    (w.writeSnapshot ls).accountWritable = w.accountWritable ∧
    (w.writeSnapshot ls).logFile = w.logFile ∧
    (w.writeSnapshot ls).logWritable = w.logWritable ∧
    (w.writeSnapshot ls).now = w.now ∧
    (w.writeSnapshot ls).out = w.out ∧
    (w.writeSnapshot ls).trace = w.trace :=
  ⟨rfl, rfl, rfl, rfl, rfl, rfl, rfl, rfl, rfl, rfl⟩

@[simp] theorem World.emit_fields (w : World) (e : Event) :
    (w.emit e).accounts = w.accounts ∧
    (w.emit e).account_count = w.account_count ∧
    (w.emit e).file_lock = w.file_lock ∧
    (w.emit e).accountFile = w.accountFile ∧
    (w.emit e).accountWritable = w.accountWritable ∧
    (w.emit e).logFile = w.logFile ∧
    (w.emit e).logWritable = w.logWritable ∧
    (w.emit e).now = w.now ∧
    (w.emit e).out = w.out ∧
    (w.emit e).trace = w.trace ++ [e] :=
  ⟨rfl, rfl, rfl, rfl, rfl, rfl, rfl, rfl, rfl, rfl⟩

@[simp] theorem World.print_fields (w : World) (m : Msg) :
    (w.print m).accounts = w.accounts ∧
    (w.print m).account_count = w.account_count ∧
    (w.print m).file_lock = w.file_lock ∧
    (w.print m).accountFile = w.accountFile ∧
    (w.print m).accountWritable = w.accountWritable ∧
    (w.print m).logFile = w.logFile ∧
    (w.print m).logWritable = w.logWritable ∧
    (w.print m).now = w.now ∧
    (w.print m).out = w.out ++ [m] ∧
    (w.print m).trace = w.trace :=
  ⟨rfl, rfl, rfl, rfl, rfl, rfl, rfl, rfl, rfl, rfl⟩

theorem inArray_toNat_lt {i : Int} (h : inArray i) : i.toNat < MAX_ACCOUNTS := by
  unfold inArray at h; omega

theorem toNat_ne_of_inArray {i j : Int} (hi : inArray i) (hj : inArray j) (h : i ≠ j) :
    i.toNat ≠ j.toNat := by
  unfold inArray at hi hj; omega

/-! ## facts about binary64 arithmetic -/

namespace F64

theorem toInt?_fin (s : Bool) (m : Nat) : toInt? (fin s m) = some (val s m) := by
  cases s <;> rfl

theorem toInt?_eq_some {x : F64} {z : Int} (h : toInt? x = some z) :
    ∃ s m, x = fin s m ∧ val s m = z := by
  cases x with
  | fin s m => exact ⟨s, m, rfl, by rw [toInt?_fin] at h; exact Option.some.inj h⟩
  | inf s => simp [toInt?] at h
  | nan => simp [toInt?] at h

theorem round_zero (s : Bool) : round s 0 1 = fin s 0 := by
  cases s <;> decide!

theorem round_ne_nan (s : Bool) (p q : Nat) : round s p q ≠ nan := by
  unfold round; split_ifs <;> simp

theorem eq_self_of_ne_nan {x : F64} (h : x ≠ nan) : F64.eq x x = true := by
  cases x with
  | fin s m => simp [F64.eq]
  | inf s => simp [F64.eq]
  | nan => exact absurd rfl h

theorem eq_zero_zero (s t : Bool) : F64.eq (fin s 0) (fin t 0) = true := by
  cases s <;> cases t <;> simp [F64.eq]

/-- A finite sum is a signed zero when the exact sum is zero and otherwise the
rounding of the exact sum. -/
theorem add_fin_fin (s t : Bool) (a b : Nat) :
    add (fin s a) (fin t b) =
      if val s a + val t b = 0 then fin (s && t) 0 else ofUnits (val s a + val t b) := by
  cases s <;> cases t <;> simp only [add, val, ofUnits] <;> simp
  · by_cases h : (a : Int) + b = 0
    · have ha : a = 0 := by omega
      have hb : b = 0 := by omega
      subst ha; subst hb; simp [round_zero]
    · have hneg : ¬ ((a : Int) + b < 0) := by omega
      have habs : ((a : Int) + b).natAbs = a + b := by omega
      simp [h, hneg, habs]
  · by_cases hab : a = b
    · subst hab; simp
    · have h0 : ¬ ((a : Int) + -(b : Int) = 0) := by omega
      by_cases hlt : b < a
      · have hneg : ¬ ((a : Int) + -(b : Int) < 0) := by omega
        have habs : ((a : Int) + -(b : Int)).natAbs = a - b := by omega
        have hba : ¬ a < b := by omega
        simp [hab, h0, hlt, hneg, habs, hba]
      · have hneg : ((a : Int) + -(b : Int) < 0) := by omega
        have habs : ((a : Int) + -(b : Int)).natAbs = b - a := by omega
        have hba : a < b := by omega
        simp [hab, h0, hlt, hneg, habs, hba]
  · by_cases hab : a = b
    · subst hab; simp
    · have h0 : ¬ (-(a : Int) + (b : Int) = 0) := by omega
      by_cases hlt : b < a
      · have hneg : (-(a : Int) + (b : Int) < 0) := by omega
        have habs : (-(a : Int) + (b : Int)).natAbs = a - b := by omega
        simp [hab, h0, hlt, hneg, habs]
      · have hneg : ¬ (-(a : Int) + (b : Int) < 0) := by omega
        have habs : (-(a : Int) + (b : Int)).natAbs = b - a := by omega
        simp [hab, h0, hlt, hneg, habs]
  · by_cases h : -(a : Int) + -(b : Int) = 0
    · have ha : a = 0 := by omega
      have hb : b = 0 := by omega
      subst ha; subst hb; simp [round_zero]
    · have hneg : (-(a : Int) + -(b : Int) < 0) := by omega
      have habs : (-(a : Int) + -(b : Int)).natAbs = a + b := by omega
      have hab : -(a : Int) < (b : Int) := by omega
      simp [h, hneg, habs, hab]

/-- Two finite sums with the same exact value compare equal. -/
theorem add_eq_of_val_eq (s t s' t' : Bool) (a b a' b' : Nat)
    (h : val s a + val t b = val s' a' + val t' b') :
    F64.eq (add (fin s a) (fin t b)) (add (fin s' a') (fin t' b')) = true := by
  rw [add_fin_fin, add_fin_fin, h]
  split_ifs
  · exact eq_zero_zero _ _
  · exact eq_self_of_ne_nan (round_ne_nan _ _ _)

/-- When neither `a - x` nor `b + x` rounds, `(a - x) + (b + x)` compares
equal to `a + b`. -/
theorem sum_preserved_of_exact (a b x : F64)
    (hs : exactSub a x = true) (ha : exactAdd b x = true) :
    F64.eq (add (sub a x) (add b x)) (add a b) = true := by
  unfold exactSub at hs
  unfold exactAdd at ha
  cases h1 : toInt? a with
  | none => simp [h1] at hs
  | some va =>
    cases h2 : toInt? x with
    | none => simp [h1, h2] at hs
    | some vx =>
      cases h3 : toInt? (sub a x) with
      | none => simp [h1, h2, h3] at hs
      | some v1 =>
        cases h4 : toInt? b with
        | none => simp [h4] at ha
        | some vb =>
          cases h5 : toInt? (add b x) with
          | none => simp [h4, h2, h5] at ha
          | some v2 =>
            simp [h1, h2, h3] at hs
            simp [h4, h2, h5] at ha
            obtain ⟨sa, ma, ea, hva⟩ := toInt?_eq_some h1
            obtain ⟨sb, mb, eb, hvb⟩ := toInt?_eq_some h4
            obtain ⟨s1, m1, e1, hv1⟩ := toInt?_eq_some h3
            obtain ⟨s2, m2, e2, hv2⟩ := toInt?_eq_some h5
            rw [e1, e2, ea, eb]
            apply add_eq_of_val_eq
            rw [hv1, hv2, hva, hvb, hs, ha]; ring

/-- `x < y` excludes `x >= y`. -/
theorem ge_eq_false_of_lt {x y : F64} (h : lt x y = true) : ge x y = false := by
  cases x with
  | nan => simp [lt] at h
  | inf s =>
    cases y with
    | nan => simp [lt] at h
    | inf t => cases s <;> cases t <;> simp_all [lt, ge]
    | fin t b => cases s <;> simp_all [lt, ge]
  | fin s a =>
    cases y with
    | nan => simp [lt] at h
    | inf t => cases t <;> simp_all [lt, ge]
    | fin t b => simp only [lt, decide_eq_true_eq] at h; simp only [ge, decide_eq_false_iff_not]; omega

end F64

/-! ## what each function returns -/

theorem transfer_funds_spec (w : World) (src dst : Int) (amount : F64)
    (hs : inArray src) (hd : inArray dst) (hne : src ≠ dst) (hfree : locksFree w)
    (hcnt : w.account_count ≤ MAX_ACCOUNTS) :
    ∃ w', transfer_funds src dst amount w = Except.ok w' ∧
      w'.account_count = w.account_count ∧
      (∀ j, (w'.accounts j).id = (w.accounts j).id) ∧
      (∀ j, j ≠ src.toNat → j ≠ dst.toNat → (w'.accounts j).balance = (w.accounts j).balance) ∧
      w'.balance src = (if F64.ge (w.balance src) amount then F64.sub (w.balance src) amount
        else w.balance src) ∧
      w'.balance dst = (if F64.ge (w.balance src) amount then F64.add (w.balance dst) amount
        else w.balance dst) ∧
      w'.logFile = (if w.logWritable then w.logFile ++ [⟨w.now, "Transfer", fmt2 amount, src, dst,
          if F64.ge (w.balance src) amount then "Successful" else "Failed: Insufficient balance"⟩]
        else w.logFile) ∧
      (∃ rest, w'.trace = w.trace ++ Event.acquire (min src dst) :: Event.acquire (max src dst) :: rest
        ∧ accountAcquires rest = []) ∧
      locksFree w' := by
  have hls := hfree.2 _ (inArray_toNat_lt hs)
  have hld := hfree.2 _ (inArray_toNat_lt hd)
  have hfl := hfree.1
  have hfr := hfree.2
  have hn := toNat_ne_of_inArray hs hd hne
  have hn' := Ne.symm hn
  have hle : src < dst → src ≤ dst := fun h => le_of_lt h
  have hle' : ¬ src < dst → dst ≤ src := fun h => not_lt.mp h
  unfold World.balance
  by_cases hlt : src < dst <;> cases hge : F64.ge (w.accounts src.toNat).balance amount <;>
    cases hlw : w.logWritable <;> cases haw : w.accountWritable <;>
    simp +contextual [transfer_funds, lockAccount, unlockAccount, readBalance, writeBalance,
      log_transaction, get_current_time, save_accounts, lockFile, unlockFile, bind, Except.bind, pure, Except.pure,
      hs, hd, hls, hld, hfl, hn, hn', hcnt, hlt, hge, hlw, haw, hle, hle', locksFree,
      accountAcquires, hfr]

theorem deposit_spec (w : World) (account_id : Int) (amount : F64)
    (hi : inArray account_id) (hfree : locksFree w) (hcnt : w.account_count ≤ MAX_ACCOUNTS) :
    ∃ w', deposit account_id amount w = Except.ok w' ∧
      w'.account_count = w.account_count ∧
      (∀ j, (w'.accounts j).id = (w.accounts j).id) ∧
      (∀ j, j ≠ account_id.toNat → (w'.accounts j).balance = (w.accounts j).balance) ∧
      w'.balance account_id = F64.add (w.balance account_id) amount ∧
      w'.logFile = (if w.logWritable then w.logFile ++
          [⟨w.now, "Deposit", fmt2 amount, account_id, -1, "Successful"⟩]
        else w.logFile) ∧
      Msg.deposited (fmt2 amount) account_id ∈ w'.out ∧
      (∃ evs, w'.trace = w.trace ++ evs ∧ ioUnderAccountLock [] evs = false) ∧
      locksFree w' := by
  have hl := hfree.2 _ (inArray_toNat_lt hi)
  have hfl := hfree.1
  have hfr := hfree.2
  unfold World.balance
  cases hlw : w.logWritable <;> cases haw : w.accountWritable <;>
    simp +contextual [deposit, lockAccount, unlockAccount, readBalance, writeBalance,
      log_transaction, get_current_time, save_accounts, lockFile, unlockFile, bind, Except.bind, pure, Except.pure,
      hi, hl, hfl, hcnt, hlw, haw, locksFree, ioUnderAccountLock, hfr]

theorem withdraw_spec (w : World) (account_id : Int) (amount : F64)
    (hi : inArray account_id) (hfree : locksFree w) (hcnt : w.account_count ≤ MAX_ACCOUNTS) :
    ∃ w', withdraw account_id amount w = Except.ok w' ∧
      w'.account_count = w.account_count ∧
      (∀ j, (w'.accounts j).id = (w.accounts j).id) ∧
      (∀ j, j ≠ account_id.toNat → (w'.accounts j).balance = (w.accounts j).balance) ∧
      w'.balance account_id = (if F64.ge (w.balance account_id) amount
        then F64.sub (w.balance account_id) amount else w.balance account_id) ∧
      w'.logFile = (if w.logWritable then w.logFile ++
          [⟨w.now, "Withdraw", fmt2 amount, account_id, -1,
            if F64.ge (w.balance account_id) amount then "Successful"
            else "Failed: Insufficient balance"⟩]
        else w.logFile) ∧
      (if F64.ge (w.balance account_id) amount then Msg.withdrawn (fmt2 amount) account_id
        else Msg.insufficientBalance account_id) ∈ w'.out ∧
      (∃ evs, w'.trace = w.trace ++ evs ∧ ioUnderAccountLock [] evs = false) ∧
      locksFree w' := by
  have hl := hfree.2 _ (inArray_toNat_lt hi)
  have hfl := hfree.1
  have hfr := hfree.2
  unfold World.balance
  cases hge : F64.ge (w.accounts account_id.toNat).balance amount <;>
    cases hlw : w.logWritable <;> cases haw : w.accountWritable <;>
    simp +contextual [withdraw, lockAccount, unlockAccount, readBalance, writeBalance,
      log_transaction, get_current_time, save_accounts, lockFile, unlockFile, bind, Except.bind, pure, Except.pure,
      hi, hl, hfl, hcnt, hge, hlw, haw, locksFree, ioUnderAccountLock, hfr]

theorem create_account_spec (w : World) (initial_balance : F64)
    (hlt : w.account_count < MAX_ACCOUNTS) (hfree : locksFree w) :
    ∃ w', create_account initial_balance w = Except.ok w' ∧
      w'.account_count = w.account_count + 1 ∧
      (∀ j, j ≠ w.account_count → (w'.accounts j).id = (w.accounts j).id ∧
        (w'.accounts j).balance = (w.accounts j).balance) ∧
      (w'.accounts w.account_count).id = (w.account_count : Int) ∧
      (w'.accounts w.account_count).balance = initial_balance ∧
      w'.logFile = (if w.logWritable then w.logFile ++
          [⟨w.now, "Create Account", fmt2 initial_balance, (w.account_count : Int), -1,
            "Successful"⟩]
        else w.logFile) ∧
      Msg.accountCreated (w.account_count : Int) (fmt2 initial_balance) ∈ w'.out ∧
      (∃ evs, w'.trace = w.trace ++ evs ∧ ioUnderAccountLock [] evs = false) ∧
      locksFree w' := by
  have hl := hfree.2 _ hlt
  have hfl := hfree.1
  have hfr := hfree.2
  have hin : inArray (w.account_count : Int) := by unfold inArray; omega
  have hle : w.account_count + 1 ≤ MAX_ACCOUNTS := hlt
  cases hlw : w.logWritable <;> cases haw : w.accountWritable <;>
    simp +contextual [create_account, lockAccount, unlockAccount,
      log_transaction, get_current_time, save_accounts, lockFile, unlockFile, bind, Except.bind, pure, Except.pure,
      hin, hlt, hl, hfl, hle, hlw, haw, locksFree, ioUnderAccountLock, hfr]

theorem create_account_full (w : World) (initial_balance : F64)
    (h : w.account_count = MAX_ACCOUNTS) :
    create_account initial_balance w = Except.ok (w.print Msg.maxLimitReached) := by
  simp [create_account, h, pure, Except.pure]

theorem save_accounts_spec (w : World) (hfl : w.file_lock = false)
    (hcnt : w.account_count ≤ MAX_ACCOUNTS) (haw : w.accountWritable = true) :
    ∃ w', save_accounts w = Except.ok w' ∧
      w'.accountFile = some (snapshotLines w) ∧
      w'.accounts = w.accounts ∧ w'.account_count = w.account_count ∧
      w'.accountWritable = w.accountWritable ∧ w'.logFile = w.logFile ∧
      w'.logWritable = w.logWritable ∧ w'.now = w.now := by
  simp [save_accounts, lockFile, unlockFile, bind, Except.bind, pure, Except.pure, hfl, hcnt, haw,
    snapshotLines]

theorem load_loop_spec (ls : List SnapLine) :
    ∀ w : World, w.account_count + ls.length ≤ MAX_ACCOUNTS →
    ∃ w', load_loop ls w = Except.ok w' ∧
      w'.account_count = w.account_count + ls.length ∧
      (∀ j, j < w.account_count → w'.accounts j = w.accounts j) ∧
      (∀ k l, ls[k]? = some l →
        (w'.accounts (w.account_count + k)).id = l.id ∧
        (w'.accounts (w.account_count + k)).balance = scanLf l.balance) := by
  induction ls with
  | nil => intro w _; exact ⟨w, rfl, by simp, by simp, by simp⟩
  | cons l ls ih =>
    intro w h
    have hlt : w.account_count < MAX_ACCOUNTS := by simp at h; omega
    obtain ⟨w', hw', hc, hold, hnew⟩ :=
      ih ((w.setSlot w.account_count ⟨l.id, scanLf l.balance, false⟩).setCount
        (w.account_count + 1)) (by simp at h ⊢; omega)
    refine ⟨w', ?_, ?_, ?_, ?_⟩
    · simp [load_loop, hlt, hw']
    · simp at hc ⊢; omega
    · intro j hj
      have := hold j (by simp; omega)
      simp at this
      rw [this]; simp; omega
    · intro k l' hk
      cases k with
      | zero =>
        simp at hk; subst hk
        have := hold w.account_count (by simp)
        simp at this ⊢
        rw [this]; simp
      | succ k =>
        simp at hk
        have := hnew k l' hk
        simp at this
        have e : w.account_count + (k + 1) = w.account_count + 1 + k := by omega
        rw [e]; exact this

/-! ## the claims -/

theorem locksFree_boot (af : Option (List SnapLine)) (aw : Bool) (lf : List LogRecord)
    (lw : Bool) (now : Nat) : locksFree (boot af aw lf lw now) :=
  ⟨rfl, fun _ _ => rfl⟩

theorem inArray_of_validId {w : World} {i : Int} (hcnt : w.account_count ≤ MAX_ACCOUNTS)
    (h : validId w i) : inArray i := by
  unfold validId at h; unfold inArray; omega

theorem locksFree_twoAccounts (a b : F64) (lw : Bool) : locksFree (twoAccounts a b lw) := by
  refine ⟨rfl, fun i _ => ?_⟩
  simp only [twoAccounts, World.setCount_fields, World.setSlot_slot]
  split_ifs <;> rfl

theorem locksFree_fullStore (a : F64) : locksFree (fullStore a) := ⟨rfl, fun _ _ => rfl⟩

set_option maxRecDepth 100000

/-- Claim C1, counterexample: with balances 0.50 and 0.10 a transfer of 0.10
is allowed, and afterwards the two balances add up to a different double than
before (0.4 + 0.2 against 0.5 + 0.1). -/
theorem transfer_sum_changes :
    ((runCalls [create_account (cents 50), create_account (cents 10)] (freshBoot true)).toOption.bind
      fun w => (transfer_funds 0 1 (cents 10) w).toOption.map fun w' =>
        (F64.ge (w.balance 0) (cents 10),
         F64.eq (F64.add (w'.balance 0) (w'.balance 1)) (F64.add (w.balance 0) (w.balance 1))))
      = some (true, false) := by
  decide!

/-- Claim C1, amended: for valid distinct ids with `balance[from] >= amount`,
`transfer_funds` returns, leaves `balance[from]` equal to the old value minus
`amount` and `balance[to]` equal to the old value plus `amount` (in double
arithmetic), and when neither of these two updates rounds, the sum of the two
balances compares equal before and after. -/
theorem transfer_funds_moves_amount (w : World) (src dst : Int) (amount : F64)
    (hcnt : w.account_count ≤ MAX_ACCOUNTS) (hfree : locksFree w)
    (hs : validId w src) (hd : validId w dst) (hne : src ≠ dst)
    (hge : F64.ge (w.balance src) amount = true) :
    ∃ w', transfer_funds src dst amount w = Except.ok w' ∧
      w'.balance src = F64.sub (w.balance src) amount ∧
      w'.balance dst = F64.add (w.balance dst) amount ∧
      (F64.exactSub (w.balance src) amount = true →
        F64.exactAdd (w.balance dst) amount = true →
        F64.eq (F64.add (w'.balance src) (w'.balance dst))
          (F64.add (w.balance src) (w.balance dst)) = true) := by
  obtain ⟨w', hw', _, _, _, hsrc, hdst, _⟩ :=
    transfer_funds_spec w src dst amount (inArray_of_validId hcnt hs)
      (inArray_of_validId hcnt hd) hne hfree hcnt
  rw [hge] at hsrc hdst
  simp only [if_true] at hsrc hdst
  refine ⟨w', hw', hsrc, hdst, ?_⟩
  intro h1 h2
  rw [hsrc, hdst]
  exact F64.sum_preserved_of_exact _ _ _ h1 h2

/-- Claim C1, witness: balances 50.00 and 0.00, transfer of 10.00 from 0 to 1. -/
theorem transfer_funds_moves_amount_witness :
    ∃ w', transfer_funds 0 1 (cents 1000) (twoAccounts (cents 5000) (cents 0) true) = Except.ok w' ∧
      w'.balance 0 = F64.sub ((twoAccounts (cents 5000) (cents 0) true).balance 0) (cents 1000) ∧
      w'.balance 1 = F64.add ((twoAccounts (cents 5000) (cents 0) true).balance 1) (cents 1000) ∧
      (F64.exactSub ((twoAccounts (cents 5000) (cents 0) true).balance 0) (cents 1000) = true →
        F64.exactAdd ((twoAccounts (cents 5000) (cents 0) true).balance 1) (cents 1000) = true →
        F64.eq (F64.add (w'.balance 0) (w'.balance 1))
          (F64.add ((twoAccounts (cents 5000) (cents 0) true).balance 0)
            ((twoAccounts (cents 5000) (cents 0) true).balance 1)) = true) :=
  transfer_funds_moves_amount (twoAccounts (cents 5000) (cents 0) true) 0 1 (cents 1000)
    (by decide) (locksFree_twoAccounts _ _ _) (by decide) (by decide) (by decide) (by decide!)

/-- Claim C2, counterexample: when the log file cannot be opened, a transfer
with insufficient balance appends no record. -/
theorem transfer_failed_unlogged :
    ((runCalls [create_account (cents 100), create_account (cents 100)] (freshBoot false)).toOption.bind
      fun w => (transfer_funds 0 1 (cents 500) w).toOption.map fun w' =>
        (F64.lt (w.balance 0) (cents 500), decide (w'.logFile = w.logFile)))
      = some (true, true) := by
  decide!

/-- Claim C2, amended: for valid distinct ids with `balance[from] < amount`,
`transfer_funds` returns with both balances unchanged and, when the log file
can be opened, with exactly one record appended, whose operation is
"Transfer" and whose status begins with "Failed". -/
theorem transfer_funds_insufficient (w : World) (src dst : Int) (amount : F64)
    (hcnt : w.account_count ≤ MAX_ACCOUNTS) (hfree : locksFree w)
    (hs : validId w src) (hd : validId w dst) (hne : src ≠ dst)
    (hlt : F64.lt (w.balance src) amount = true) (hlw : w.logWritable = true) :
    ∃ w', transfer_funds src dst amount w = Except.ok w' ∧
      w'.balance src = w.balance src ∧ w'.balance dst = w.balance dst ∧
      ∃ r, w'.logFile = w.logFile ++ [r] ∧ r.operation = "Transfer" ∧
        "Failed".toList.isPrefixOf r.status.toList = true := by
  obtain ⟨w', hw', _, _, _, hsrc, hdst, hlog, _⟩ :=
    transfer_funds_spec w src dst amount (inArray_of_validId hcnt hs)
      (inArray_of_validId hcnt hd) hne hfree hcnt
  have hge := F64.ge_eq_false_of_lt hlt
  rw [hge] at hsrc hdst hlog
  rw [hlw] at hlog
  simp only [if_true, Bool.false_eq_true, if_false] at hsrc hdst hlog
  refine ⟨w', hw', hsrc, hdst, _, hlog, rfl, ?_⟩
  show "Failed".toList.isPrefixOf "Failed: Insufficient balance".toList = true
  decide

/-- Claim C2, witness: balances 1.00 and 1.00, transfer of 5.00 from 0 to 1. -/
theorem transfer_funds_insufficient_witness :
    ∃ w', transfer_funds 0 1 (cents 500) (twoAccounts (cents 100) (cents 100) true) = Except.ok w' ∧
      w'.balance 0 = (twoAccounts (cents 100) (cents 100) true).balance 0 ∧
      w'.balance 1 = (twoAccounts (cents 100) (cents 100) true).balance 1 ∧
      ∃ r, w'.logFile = (twoAccounts (cents 100) (cents 100) true).logFile ++ [r] ∧
        r.operation = "Transfer" ∧ "Failed".toList.isPrefixOf r.status.toList = true :=
  transfer_funds_insufficient (twoAccounts (cents 100) (cents 100) true) 0 1 (cents 500)
    (by decide) (locksFree_twoAccounts _ _ _) (by decide) (by decide) (by decide) (by decide!)
    rfl

/-- Claim C3: when `account_count` equals `MAX_ACCOUNTS`, `create_account`
returns having only printed the limit message: `account_count`, every slot
of `accounts`, the log and the snapshot file are unchanged. -/
theorem create_account_at_capacity (w : World) (initial_balance : F64)
    (h : w.account_count = MAX_ACCOUNTS) :
    ∃ w', create_account initial_balance w = Except.ok w' ∧
      w'.account_count = w.account_count ∧
      (∀ j, (w'.accounts j).id = (w.accounts j).id ∧
        (w'.accounts j).balance = (w.accounts j).balance) ∧
      w'.out = w.out ++ [Msg.maxLimitReached] ∧
      w'.logFile = w.logFile ∧ w'.accountFile = w.accountFile :=
  ⟨_, create_account_full w initial_balance h, by simp⟩

/-- Claim C3, witness: the full store of ten accounts. -/
theorem create_account_at_capacity_witness :
    ∃ w', create_account (cents 100) (fullStore (cents 0)) = Except.ok w' ∧
      w'.account_count = (fullStore (cents 0)).account_count ∧
      (∀ j, (w'.accounts j).id = ((fullStore (cents 0)).accounts j).id ∧
        (w'.accounts j).balance = ((fullStore (cents 0)).accounts j).balance) ∧
      w'.out = (fullStore (cents 0)).out ++ [Msg.maxLimitReached] ∧
      w'.logFile = (fullStore (cents 0)).logFile ∧
      w'.accountFile = (fullStore (cents 0)).accountFile :=
  create_account_at_capacity (fullStore (cents 0)) (cents 100) rfl

/-- Claim C4, counterexample: `create_account` on a store at capacity returns
and leaves the log as it was; `transfer_funds` from an account to itself never
returns (it blocks on the mutex it already holds); `deposit` with id 10 indexes
outside the array. -/
theorem full_create_appends_nothing :
    ((create_account (cents 100) (fullStore (cents 0))).toOption.map
        fun w' => decide (w'.logFile = (fullStore (cents 0)).logFile)) = some true ∧
    ((fullStore (cents 0)).logWritable = true ∧ (fullStore (cents 0)).account_count = MAX_ACCOUNTS) ∧
    (match transfer_funds 0 0 (cents 100) (fullStore (cents 0)) with
      | Except.error e => e = Fault.deadlock
      | Except.ok _ => False) ∧
    (match deposit 10 (cents 100) (fullStore (cents 0)) with
      | Except.error e => e = Fault.outOfBounds
      | Except.ok _ => False) := by
  refine ⟨by decide!, ⟨rfl, rfl⟩, ?_, ?_⟩
  · rfl
  · rfl

/-- Claim C4, amended: when no mutex is held, `account_count` is within
capacity and the log file can be opened, `create_account` below capacity,
`deposit` and `withdraw` with an id inside the array, and `transfer_funds`
with two distinct ids inside the array each return with the log exactly one
record longer and all earlier records unchanged, on success and on
insufficient balance alike. -/
theorem mutating_call_appends_one_record (w : World)
    (hcnt : w.account_count ≤ MAX_ACCOUNTS) (hfree : locksFree w)
    (hlw : w.logWritable = true) :
    (w.account_count < MAX_ACCOUNTS → ∀ b, ∃ w' r,
      create_account b w = Except.ok w' ∧ w'.logFile = w.logFile ++ [r] ∧
        r.operation = "Create Account") ∧
    (∀ i amount, inArray i → ∃ w' r,
      deposit i amount w = Except.ok w' ∧ w'.logFile = w.logFile ++ [r] ∧
        r.operation = "Deposit") ∧
    (∀ i amount, inArray i → ∃ w' r,
      withdraw i amount w = Except.ok w' ∧ w'.logFile = w.logFile ++ [r] ∧
        r.operation = "Withdraw") ∧
    (∀ src dst amount, inArray src → inArray dst → src ≠ dst → ∃ w' r,
      transfer_funds src dst amount w = Except.ok w' ∧ w'.logFile = w.logFile ++ [r] ∧
        r.operation = "Transfer") := by
  refine ⟨?_, ?_, ?_, ?_⟩
  · intro hlt b
    obtain ⟨w', hw', _, _, _, _, hlog, _⟩ := create_account_spec w b hlt hfree
    rw [hlw] at hlog
    exact ⟨w', _, hw', hlog, rfl⟩
  · intro i amount hi
    obtain ⟨w', hw', _, _, _, _, hlog, _⟩ := deposit_spec w i amount hi hfree hcnt
    rw [hlw] at hlog
    exact ⟨w', _, hw', hlog, rfl⟩
  · intro i amount hi
    obtain ⟨w', hw', _, _, _, _, hlog, _⟩ := withdraw_spec w i amount hi hfree hcnt
    rw [hlw] at hlog
    exact ⟨w', _, hw', hlog, rfl⟩
  · intro src dst amount hs hd hne
    obtain ⟨w', hw', _, _, _, _, _, hlog, _⟩ := transfer_funds_spec w src dst amount hs hd hne hfree hcnt
    rw [hlw] at hlog
    exact ⟨w', _, hw', hlog, rfl⟩

/-- Claim C4, witness: a deposit of 1.00 to account 0 of a two-account store. -/
theorem mutating_call_appends_one_record_witness :
    ∃ w' r, deposit 0 (cents 100) (twoAccounts (cents 100) (cents 100) true) = Except.ok w' ∧
      w'.logFile = (twoAccounts (cents 100) (cents 100) true).logFile ++ [r] ∧
      r.operation = "Deposit" :=
  (mutating_call_appends_one_record (twoAccounts (cents 100) (cents 100) true)
    (by decide) (locksFree_twoAccounts _ _ _) rfl).2.1 0 (cents 100) (by decide)

/-- Claim C5, counterexample: on the empty store (no valid id at all)
`deposit(5, 1.00)` and `withdraw(5, 0.00)` report success on stdout and in the
log, and the deposit changes the balance stored in slot 5. -/
theorem deposit_withdraw_accept_unused_id :
    (freshBoot true).account_count = 0 ∧
    ((deposit 5 (cents 100) (freshBoot true)).toOption.map
        fun w' => (w'.out, w'.logFile.map LogRecord.summary))
      = some ([Msg.deposited (Dec2.num false 100) 5], [("Deposit", 5, -1, "Successful")]) ∧
    ((deposit 5 (cents 100) (freshBoot true)).toOption.map fun w' => w'.balance 5)
      = some (cents 100) ∧
    ((withdraw 5 (cents 0) (freshBoot true)).toOption.map
        fun w' => (w'.out, w'.logFile.map LogRecord.summary))
      = some ([Msg.withdrawn (Dec2.num false 0) 5], [("Withdraw", 5, -1, "Successful")]) := by
  refine ⟨rfl, ?_, ?_, ?_⟩ <;> decide!

/-- Claim C5, amended: for an id with `account_count <= id < MAX_ACCOUNTS`
(outside the accounts in use, inside the array) `deposit` and `withdraw` do
not check the id: they return, leave `account_count` and the id and balance of
every account below `account_count` unchanged, and report the ordinary
outcome (deposited; withdrawn or insufficient balance, decided by the balance
stored in that slot). -/
theorem deposit_withdraw_unused_id (w : World) (i : Int) (amount : F64)
    (hcnt : w.account_count ≤ MAX_ACCOUNTS) (hfree : locksFree w)
    (hlo : (w.account_count : Int) ≤ i) (hhi : i < (MAX_ACCOUNTS : Int)) :
    (∃ w', deposit i amount w = Except.ok w' ∧
      w'.account_count = w.account_count ∧
      (∀ j, j < w.account_count → (w'.accounts j).id = (w.accounts j).id ∧
        (w'.accounts j).balance = (w.accounts j).balance) ∧
      Msg.deposited (fmt2 amount) i ∈ w'.out) ∧
    (∃ w', withdraw i amount w = Except.ok w' ∧
      w'.account_count = w.account_count ∧
      (∀ j, j < w.account_count → (w'.accounts j).id = (w.accounts j).id ∧
        (w'.accounts j).balance = (w.accounts j).balance) ∧
      (if F64.ge (w.balance i) amount then Msg.withdrawn (fmt2 amount) i
        else Msg.insufficientBalance i) ∈ w'.out) := by
  have hi : inArray i := by unfold inArray; omega
  constructor
  · obtain ⟨w', hw', hc, hid, hbal, _, _, hout, _⟩ := deposit_spec w i amount hi hfree hcnt
    exact ⟨w', hw', hc, fun j hj => ⟨hid j, hbal j (by omega)⟩, hout⟩
  · obtain ⟨w', hw', hc, hid, hbal, _, _, hout, _⟩ := withdraw_spec w i amount hi hfree hcnt
    exact ⟨w', hw', hc, fun j hj => ⟨hid j, hbal j (by omega)⟩, hout⟩

/-- Claim C5, witness: id 5 on a store of two accounts. -/
theorem deposit_withdraw_unused_id_witness :
    (∃ w', deposit 5 (cents 100) (twoAccounts (cents 100) (cents 100) true) = Except.ok w' ∧
      w'.account_count = (twoAccounts (cents 100) (cents 100) true).account_count ∧
      (∀ j, j < (twoAccounts (cents 100) (cents 100) true).account_count →
        (w'.accounts j).id = ((twoAccounts (cents 100) (cents 100) true).accounts j).id ∧
        (w'.accounts j).balance = ((twoAccounts (cents 100) (cents 100) true).accounts j).balance) ∧
      Msg.deposited (fmt2 (cents 100)) 5 ∈ w'.out) ∧
    (∃ w', withdraw 5 (cents 100) (twoAccounts (cents 100) (cents 100) true) = Except.ok w' ∧
      w'.account_count = (twoAccounts (cents 100) (cents 100) true).account_count ∧
      (∀ j, j < (twoAccounts (cents 100) (cents 100) true).account_count →
        (w'.accounts j).id = ((twoAccounts (cents 100) (cents 100) true).accounts j).id ∧
        (w'.accounts j).balance = ((twoAccounts (cents 100) (cents 100) true).accounts j).balance) ∧
      (if F64.ge ((twoAccounts (cents 100) (cents 100) true).balance 5) (cents 100)
        then Msg.withdrawn (fmt2 (cents 100)) 5 else Msg.insufficientBalance 5) ∈ w'.out) :=
  deposit_withdraw_unused_id (twoAccounts (cents 100) (cents 100) true) 5 (cents 100)
    (by decide) (locksFree_twoAccounts _ _ _) (by decide) (by decide)

/-- Claim C6, counterexample: an account holding 0.3125 (a double, `5 * 2^-4`)
is saved as the text 0.31 and read back as the double 0.31, which differs. -/
theorem snapshot_loses_third_decimal :
    F64.isDouble (F64.fin false (5 * 2 ^ 1070)) = true ∧
    ((save_accounts (twoAccounts (F64.fin false (5 * 2 ^ 1070)) (cents 100) true)).toOption.bind
      fun w1 => (load_accounts (restart w1)).toOption.map fun w2 =>
        (w1.accountFile, w2.account_count, (w2.accounts 0).id,
         decide (w2.balance 0 = cents 31),
         F64.eq (w2.balance 0)
           ((twoAccounts (F64.fin false (5 * 2 ^ 1070)) (cents 100) true).balance 0)))
      = some (some [⟨0, Dec2.num false 31⟩, ⟨1, Dec2.num false 100⟩], 2, 0, true, false) := by
  constructor <;> decide!

theorem snapshotLines_get (w : World) (k : Nat) (h : k < w.account_count) :
    (snapshotLines w)[k]? = some ⟨(w.accounts k).id, fmt2 (w.accounts k).balance⟩ := by
  simp [snapshotLines, List.getElem?_range h]

theorem snapshotLines_length (w : World) : (snapshotLines w).length = w.account_count := by
  simp [snapshotLines]

theorem cents_survives_two_decimals : scanLf (fmt2 (cents 1234)) = cents 1234 := by
  decide!

/-- Claim C6, amended: for every store with `account_count <= MAX_ACCOUNTS`,
when the snapshot file can be written, `save_accounts` followed by
`load_accounts` in a freshly started process reproduces the same
`account_count` and the same id for every account, and gives every account
the double nearest to its balance rounded to two decimals (so exactly the
balances that survive printing with two decimals come back unchanged). -/
theorem snapshot_roundtrip (w : World) (hcnt : w.account_count ≤ MAX_ACCOUNTS)
    (hfl : w.file_lock = false) (haw : w.accountWritable = true) :
    ∃ w1 w2, save_accounts w = Except.ok w1 ∧ load_accounts (restart w1) = Except.ok w2 ∧
      w2.account_count = w.account_count ∧
      ∀ i, i < w.account_count →
        (w2.accounts i).id = (w.accounts i).id ∧
        (w2.accounts i).balance = scanLf (fmt2 (w.accounts i).balance) ∧
        (scanLf (fmt2 (w.accounts i).balance) = (w.accounts i).balance →
          (w2.accounts i).balance = (w.accounts i).balance) := by
  obtain ⟨w1, hw1, hfile, _⟩ := save_accounts_spec w hfl hcnt haw
  obtain ⟨w2, hw2, hc, _, hnew⟩ := load_loop_spec (snapshotLines w) (restart w1)
    (by simp [restart, boot, snapshotLines_length]; exact hcnt)
  refine ⟨w1, w2, hw1, ?_, ?_, ?_⟩
  · have hf : (restart w1).accountFile = some (snapshotLines w) := hfile
    simp only [load_accounts, hf]
    exact hw2
  · simpa [restart, boot, snapshotLines_length] using hc
  · intro i hi
    have := hnew i _ (snapshotLines_get w i hi)
    simp only [restart, boot, Nat.zero_add] at this
    exact ⟨this.1, this.2, fun h => this.2.trans h⟩

/-- Claim C6, witness: a store of two accounts with balances 12.34 and 1.00. -/
theorem snapshot_roundtrip_witness :
    ∃ w1 w2, save_accounts (twoAccounts (cents 1234) (cents 100) true) = Except.ok w1 ∧
      load_accounts (restart w1) = Except.ok w2 ∧
      w2.account_count = (twoAccounts (cents 1234) (cents 100) true).account_count ∧
      ∀ i, i < (twoAccounts (cents 1234) (cents 100) true).account_count →
        (w2.accounts i).id = ((twoAccounts (cents 1234) (cents 100) true).accounts i).id ∧
        (w2.accounts i).balance =
          scanLf (fmt2 ((twoAccounts (cents 1234) (cents 100) true).accounts i).balance) ∧
        (scanLf (fmt2 ((twoAccounts (cents 1234) (cents 100) true).accounts i).balance) =
            ((twoAccounts (cents 1234) (cents 100) true).accounts i).balance →
          (w2.accounts i).balance =
            ((twoAccounts (cents 1234) (cents 100) true).accounts i).balance) :=
  snapshot_roundtrip (twoAccounts (cents 1234) (cents 100) true) (by decide) rfl rfl

/-- Claim C7, counterexample: the empty store satisfies the invariant, but
loading a snapshot file whose only line is "5 1.00" puts id 5 into slot 0;
loading a file of eleven lines writes past the end of the array. -/
theorem load_accounts_breaks_invariant :
    storeInv (boot (some [⟨5, Dec2.num false 100⟩]) true [] true 0) ∧
    (∃ w', load_accounts (boot (some [⟨5, Dec2.num false 100⟩]) true [] true 0) = Except.ok w' ∧
      ¬ storeInv w') ∧
    (match load_accounts
        (boot (some ((List.range 11).map fun k => ⟨(k : Int), Dec2.num false 100⟩)) true [] true 0) with
      | Except.error e => e = Fault.outOfBounds
      | Except.ok _ => False) := by
  refine ⟨⟨by decide, fun i hi => absurd hi (Nat.not_lt_zero i)⟩, ⟨_, rfl, ?_⟩, rfl⟩
  intro h
  have h0 := h.2 0 (by decide)
  revert h0
  decide

theorem storeInv_of_ids (w w' : World) (hinv : storeInv w)
    (hc : w'.account_count = w.account_count)
    (hid : ∀ j, (w'.accounts j).id = (w.accounts j).id) : storeInv w' :=
  ⟨hc ▸ hinv.1, fun i hi => (hid i).trans (hinv.2 i (hc ▸ hi))⟩

/-- Claim C7, amended: the store invariant (`account_count <= MAX_ACCOUNTS`
and slot `i` carries id `i` for every `i < account_count`) holds in the empty
store at process start and is preserved by `create_account`, by `deposit`,
`withdraw` and `transfer_funds` with valid (and, for the transfer, distinct)
ids, and by `load_accounts` at process start when there is no snapshot file
or when the file has at most `MAX_ACCOUNTS` lines and its line `k` carries id
`k`, which is what `save_accounts` writes from a store satisfying the
invariant. -/
theorem storeInv_preserved :
    (∀ af aw lf lw now, storeInv (boot af aw lf lw now)) ∧
    (∀ w b, storeInv w → locksFree w →
      ∃ w', create_account b w = Except.ok w' ∧ storeInv w') ∧
    (∀ w i amount, storeInv w → locksFree w → validId w i →
      ∃ w', deposit i amount w = Except.ok w' ∧ storeInv w') ∧
    (∀ w i amount, storeInv w → locksFree w → validId w i →
      ∃ w', withdraw i amount w = Except.ok w' ∧ storeInv w') ∧
    (∀ w src dst amount, storeInv w → locksFree w → validId w src → validId w dst → src ≠ dst →
      ∃ w', transfer_funds src dst amount w = Except.ok w' ∧ storeInv w') ∧
    (∀ aw lf lw now, ∃ w', load_accounts (boot none aw lf lw now) = Except.ok w' ∧ storeInv w') ∧
    (∀ ls aw lf lw now, ls.length ≤ MAX_ACCOUNTS → (∀ (k : Nat) (l : SnapLine), ls[k]? = some l → l.id = (k : Int)) →
      ∃ w', load_accounts (boot (some ls) aw lf lw now) = Except.ok w' ∧ storeInv w') ∧
    (∀ w, storeInv w → (snapshotLines w).length ≤ MAX_ACCOUNTS ∧
      ∀ (k : Nat) (l : SnapLine), (snapshotLines w)[k]? = some l → l.id = (k : Int)) := by
  refine ⟨?_, ?_, ?_, ?_, ?_, ?_, ?_, ?_⟩
  · intro af aw lf lw now
    exact ⟨Nat.zero_le _, fun i hi => absurd hi (Nat.not_lt_zero i)⟩
  · intro w b hinv hfree
    rcases Nat.lt_or_ge w.account_count MAX_ACCOUNTS with hlt | hge
    · obtain ⟨w', hw', hc, hold, hnew, _⟩ := create_account_spec w b hlt hfree
      refine ⟨w', hw', by omega, fun i hi => ?_⟩
      by_cases hi' : i = w.account_count
      · rw [hi', hnew]
      · rw [(hold i hi').1]; exact hinv.2 i (by omega)
    · have heq : w.account_count = MAX_ACCOUNTS := Nat.le_antisymm hinv.1 hge
      exact ⟨_, create_account_full w b heq, storeInv_of_ids w _ hinv (by simp) (by simp)⟩
  · intro w i amount hinv hfree hi
    obtain ⟨w', hw', hc, hid, _⟩ :=
      deposit_spec w i amount (inArray_of_validId hinv.1 hi) hfree hinv.1
    exact ⟨w', hw', storeInv_of_ids w w' hinv hc hid⟩
  · intro w i amount hinv hfree hi
    obtain ⟨w', hw', hc, hid, _⟩ :=
      withdraw_spec w i amount (inArray_of_validId hinv.1 hi) hfree hinv.1
    exact ⟨w', hw', storeInv_of_ids w w' hinv hc hid⟩
  · intro w src dst amount hinv hfree hs hd hne
    obtain ⟨w', hw', hc, hid, _⟩ :=
      transfer_funds_spec w src dst amount (inArray_of_validId hinv.1 hs)
        (inArray_of_validId hinv.1 hd) hne hfree hinv.1
    exact ⟨w', hw', storeInv_of_ids w w' hinv hc hid⟩
  · intro aw lf lw now
    exact ⟨_, rfl, Nat.zero_le _, fun i hi => absurd hi (Nat.not_lt_zero i)⟩
  · intro ls aw lf lw now hlen hids
    obtain ⟨w', hw', hc, _, hnew⟩ := load_loop_spec ls (boot (some ls) aw lf lw now)
      (by simpa [boot] using hlen)
    refine ⟨w', hw', ?_, ?_⟩
    · rw [hc]; simpa [boot] using hlen
    · intro i hi
      have hil : i < ls.length := by simpa [hc, boot] using hi
      have hget : ls[i]? = some ls[i] := List.getElem?_eq_getElem hil
      have := (hnew i _ hget).1
      simp only [boot, Nat.zero_add] at this
      rw [this]; exact hids i _ hget
  · intro w hinv
    refine ⟨by rw [snapshotLines_length]; exact hinv.1, fun k l hk => ?_⟩
    have hlt : k < w.account_count := by
      have := List.getElem?_eq_some_iff.mp hk
      obtain ⟨h, _⟩ := this
      simpa [snapshotLines_length] using h
    rw [snapshotLines_get w k hlt] at hk
    cases hk
    exact hinv.2 k hlt

/-- Claim C7, witness: creating the first account in the empty store. -/
theorem storeInv_preserved_witness :
    ∃ w', create_account (cents 100) (freshBoot true) = Except.ok w' ∧ storeInv w' :=
  storeInv_preserved.2.1 (freshBoot true) (cents 100)
    ⟨by decide, fun i hi => absurd hi (Nat.not_lt_zero i)⟩ (locksFree_boot _ _ _ _ _)

/-- Claim C8, counterexample: after the five calls of the scenario the log
holds five records, not four. -/
theorem scenario_log_has_five_records :
    ((runCalls scenarioCalls (freshBoot true)).toOption.map fun w => w.logFile.length) = some 5 ∧
    ((runCalls scenarioCalls (freshBoot true)).toOption.map fun w => w.logFile.length) ≠ some 4 := by
  constructor <;> decide!

/-- Claim C8, amended: from the empty store and the empty log (log file
writable) the first call creates id 0 with balance 100.00, the deposit makes
it 150.00, the withdraw of 200.00 fails for insufficient balance and leaves
150.00, the second create assigns id 1, the transfer ends with balances 0.00
and 150.00, and the log then holds five records in call order. -/
theorem scenario_outcome :
    ((runCalls (scenarioCalls.take 1) (freshBoot true)).toOption.map
        fun w => (w.account_count, (w.accounts 0).id, w.balance 0)) = some (1, 0, cents 10000) ∧
    ((runCalls (scenarioCalls.take 2) (freshBoot true)).toOption.map
        fun w => w.balance 0) = some (cents 15000) ∧
    ((runCalls (scenarioCalls.take 3) (freshBoot true)).toOption.map
        fun w => (w.balance 0, w.out.getLast?)) =
      some (cents 15000, some (Msg.insufficientBalance 0)) ∧
    ((runCalls (scenarioCalls.take 3) (freshBoot true)).toOption.map
        fun w => w.logFile.getLast?.map LogRecord.summary) =
      some (some ("Withdraw", 0, -1, "Failed: Insufficient balance")) ∧
    ((runCalls (scenarioCalls.take 4) (freshBoot true)).toOption.map
        fun w => (w.account_count, (w.accounts 1).id)) = some (2, 1) ∧
    ((runCalls (scenarioCalls.take 4) (freshBoot true)).toOption.map
        fun w => (w.balance 0, w.balance 1)) = some (cents 15000, cents 0) ∧
    ((runCalls scenarioCalls (freshBoot true)).toOption.map
        fun w => (w.account_count, w.balance 0, w.balance 1)) = some (2, cents 0, cents 15000) ∧
    ((runCalls scenarioCalls (freshBoot true)).toOption.map
        fun w => w.logFile.map LogRecord.summary) =
      some [("Create Account", 0, -1, "Successful"),
            ("Deposit", 0, -1, "Successful"),
            ("Withdraw", 0, -1, "Failed: Insufficient balance"),
            ("Create Account", 1, -1, "Successful"),
            ("Transfer", 0, 1, "Successful")] := by
  refine ⟨?_, ?_, ?_, ?_, ?_, ?_, ?_, ?_⟩ <;> decide!

/-- Claim C9: for two distinct ids inside the array, `transfer_funds(A, B, x)`
and `transfer_funds(B, A, y)` both return, both start by acquiring the mutex
of `min A B` and then the mutex of `max A B`, and acquire no other account
mutex afterwards. -/
theorem transfer_funds_lock_order (w : World) (A B : Int) (x y : F64)
    (hcnt : w.account_count ≤ MAX_ACCOUNTS) (hfree : locksFree w)
    (hA : inArray A) (hB : inArray B) (hne : A ≠ B) :
    ∃ w1 w2 r1 r2, transfer_funds A B x w = Except.ok w1 ∧
      transfer_funds B A y w = Except.ok w2 ∧
      w1.trace = w.trace ++ Event.acquire (min A B) :: Event.acquire (max A B) :: r1 ∧
      w2.trace = w.trace ++ Event.acquire (min A B) :: Event.acquire (max A B) :: r2 ∧
      accountAcquires r1 = [] ∧ accountAcquires r2 = [] ∧ min A B < max A B := by
  obtain ⟨w1, hw1, _, _, _, _, _, _, ⟨r1, ht1, ha1⟩, _⟩ :=
    transfer_funds_spec w A B x hA hB hne hfree hcnt
  obtain ⟨w2, hw2, _, _, _, _, _, _, ⟨r2, ht2, ha2⟩, _⟩ :=
    transfer_funds_spec w B A y hB hA (Ne.symm hne) hfree hcnt
  rw [min_comm B A, max_comm B A] at ht2
  exact ⟨w1, w2, r1, r2, hw1, hw2, ht1, ht2, ha1, ha2, by
    rcases lt_or_gt_of_ne hne with h | h
    · rw [min_eq_left h.le, max_eq_right h.le]; exact h
    · rw [min_eq_right h.le, max_eq_left h.le]; exact h⟩

/-- Claim C9, witness: transfers between accounts 1 and 0 of a two-account store. -/
theorem transfer_funds_lock_order_witness :
    ∃ w1 w2 r1 r2,
      transfer_funds 1 0 (cents 100) (twoAccounts (cents 100) (cents 100) true) = Except.ok w1 ∧
      transfer_funds 0 1 (cents 200) (twoAccounts (cents 100) (cents 100) true) = Except.ok w2 ∧
      w1.trace = (twoAccounts (cents 100) (cents 100) true).trace ++
        Event.acquire (min 1 0) :: Event.acquire (max 1 0) :: r1 ∧
      w2.trace = (twoAccounts (cents 100) (cents 100) true).trace ++
        Event.acquire (min 1 0) :: Event.acquire (max 1 0) :: r2 ∧
      accountAcquires r1 = [] ∧ accountAcquires r2 = [] ∧ min (1 : Int) 0 < max 1 0 :=
  transfer_funds_lock_order (twoAccounts (cents 100) (cents 100) true) 1 0 (cents 100) (cents 200)
    (by decide) (locksFree_twoAccounts _ _ _) (by decide) (by decide) (by decide)

/-- Claim C10, evaluation at the failing input: a transfer of 10.00 from
account 0 to account 1 appends its log record while both account mutexes are
held, and releases them only afterwards. -/
theorem transfer_funds_logs_under_locks :
    ((transfer_funds 0 1 (cents 1000) (twoAccounts (cents 5000) (cents 0) true)).toOption.map
      fun w' => (newEvents (twoAccounts (cents 5000) (cents 0) true) w',
        ioUnderAccountLock [] (newEvents (twoAccounts (cents 5000) (cents 0) true) w')))
      = some ([Event.acquire 0, Event.acquire 1, Event.acquireFile, Event.logAppend,
          Event.releaseFile, Event.release 1, Event.release 0, Event.acquireFile,
          Event.snapshotWrite, Event.releaseFile], true) := by
  decide!

end Ledger
